import Mathlib

/-!
Verification development for the JACK-over-PulseAudio bridge (src/jopa.cpp).

The per-period data path, the pending-connection queue, the port-mirroring
callback, the ring reallocation on block-size change, and the lock scoping of
the reconfiguration handlers are embedded shallowly below.  The Sample Ring
Transport itself (jack_ringbuffer_t) is implemented outside this repository;
it is modelled from the spec of the transport: a fixed byte-capacity
single-producer/single-consumer ring whose read and write pointers are
free-running byte counters, the byte at logical position p living at physical
index p % size, and whose partial reads/writes split at the physical wrap
point into two contiguous regions.  Everything that calls the transport is
translated from src/jopa.cpp.
-/

namespace Jopa

/-- constexpr unsigned num_channels = 2 (src/jopa.cpp line 40). -/
def num_channels : Nat := 2

/-- sizeof(pulse_sample_t) = sizeof(float) = 4 bytes. -/
def sample_width : Nat := 4

/-- constexpr unsigned ringbuffer_fragments = 2 (src/jopa.cpp line 41). -/
def ringbuffer_fragments : Nat := 2

/-- buffer_required = nframes * (num_channels * sizeof(pulse_sample_t)),
the byte requirement of one period (src/jopa.cpp line 317). -/
def buffer_required (nframes : Nat) : Nat := nframes * (num_channels * sample_width)

/-- Capacity requested of jack_ringbuffer_create:
jack_buffer_size * (num_channels * sizeof(pulse_sample_t) * ringbuffer_fragments)
(src/jopa.cpp lines 201, 205, 209, 433, 438, 443). -/
def ringCapacity (bufsize : Nat) : Nat :=
  bufsize * (num_channels * sample_width * ringbuffer_fragments)

/-- Pointwise update of a byte store. -/
def upd (f : Nat → Nat) (k v : Nat) : Nat → Nat := fun i => if i = k then v else f i

/-- Pointwise update of a channel-and-frame indexed port buffer. -/
def upd2 (f : Nat → Nat → Nat) (c i v : Nat) : Nat → Nat → Nat :=
  fun c2 i2 => if c2 = c ∧ i2 = i then v else f c2 i2

/-- Byte k (little-endian, 0 ≤ k < 4) of a 32-bit sample value. -/
def sbyte (v k : Nat) : Nat := v / 256 ^ k % 256

/-- The 32-bit value whose little-endian bytes are b0 b1 b2 b3; models the
4-byte load `*(pulse_sample_t*)&buf[offset]`. -/
def word32 (b0 b1 b2 b3 : Nat) : Nat := b0 + 256 * b1 + 65536 * b2 + 16777216 * b3

/-- Modelled from the spec: the Sample Ring Transport (the jack_ringbuffer_t
implementation is external to this repository; only its callers are in src/).
read_ptr and write_ptr are free-running byte counters; logical byte position p
lives at physical index p % size. -/
structure Ringbuffer where
  size : Nat
  data : Nat → Nat
  read_ptr : Nat
  write_ptr : Nat

/-- Modelled from the spec: a freshly allocated transport of the given byte
capacity is empty. -/
def Ringbuffer.create (sz : Nat) : Ringbuffer := ⟨sz, fun _ => 0, 0, 0⟩

/-- Bytes available for reading (jack_ringbuffer_read_space). -/
def Ringbuffer.read_space (rb : Ringbuffer) : Nat := rb.write_ptr - rb.read_ptr

/-- Bytes available for writing (jack_ringbuffer_write_space). -/
def Ringbuffer.write_space (rb : Ringbuffer) : Nat := rb.size - rb.read_space

/-- jack_ringbuffer_read_advance. -/
def Ringbuffer.read_advance (rb : Ringbuffer) (n : Nat) : Ringbuffer :=
  { rb with read_ptr := rb.read_ptr + n }

/-- Length of the first contiguous region of jack_ringbuffer_get_write_vector:
from the physical write position up to the physical end of the buffer, clamped
to the free count. -/
def Ringbuffer.writeVec0Len (rb : Ringbuffer) : Nat :=
  min rb.write_space (rb.size - rb.write_ptr % rb.size)

/-- Length of the first contiguous region of jack_ringbuffer_get_read_vector. -/
def Ringbuffer.readVec0Len (rb : Ringbuffer) : Nat :=
  min rb.read_space (rb.size - rb.read_ptr % rb.size)

/-- The next n readable bytes (clamped to the available data), without
consuming them. -/
def Ringbuffer.peekBytes (rb : Ringbuffer) (n : Nat) : List Nat :=
  (List.range (min n rb.read_space)).map fun j => rb.data ((rb.read_ptr + j) % rb.size)

/-- jack_ringbuffer_read: copies out up to n bytes and consumes them. -/
def Ringbuffer.readBytes (rb : Ringbuffer) (n : Nat) : List Nat × Ringbuffer :=
  (rb.peekBytes n, rb.read_advance (min n rb.read_space))

/-- Overflow/underflow diagnostics printed by the data-path callbacks. -/
inductive Report where
  | playbackOverflow : Report
  | recordUnderflow : Report
  | monitorUnderflow : Report
  | playbackUnderflow : Report
deriving DecidableEq

/-- Base physical byte address chosen by the split-vector branch in
jack_on_process (src/jopa.cpp lines 325-329 and 357-361): region 0 starts at
physical index pos, region 1 at physical index 0, and a sample at logical
offset `offset` is placed entirely in region 0 when offset < len0, entirely in
region 1 otherwise. -/
def sampleAddr (pos len0 offset : Nat) : Nat :=
  if offset < len0 then pos + offset else offset - len0

/-- The 4-byte store `*(pulse_sample_t*)&buf[base] = v` at contiguous physical
indices base..base+3. -/
def storeSampleAt (data : Nat → Nat) (base v : Nat) : Nat → Nat :=
  upd (upd (upd (upd data base (sbyte v 0)) (base + 1) (sbyte v 1)) (base + 2) (sbyte v 2))
    (base + 3) (sbyte v 3)

/-- The 4-byte load `*(pulse_sample_t*)&buf[base]` from contiguous physical
indices base..base+3. -/
def loadSampleAt (data : Nat → Nat) (base : Nat) : Nat :=
  word32 (data base) (data (base + 1)) (data (base + 2)) (data (base + 3))

/-- One iteration of the playback interleave loop body for frame i, channel
ch: index = i * num_channels + ch, offset = index * sizeof(pulse_sample_t),
stored through the write vector (src/jopa.cpp lines 321-331). -/
def storeOneSample (pos len0 : Nat) (jbuf : Nat → Nat → Nat) (i ch : Nat)
    (data : Nat → Nat) : Nat → Nat :=
  storeSampleAt data (sampleAddr pos len0 ((i * num_channels + ch) * sample_width)) (jbuf ch i)

/-- The inner channel loop of the playback copy for one frame. -/
def frameStore (pos len0 : Nat) (jbuf : Nat → Nat → Nat) (i : Nat)
    (data : Nat → Nat) : Nat → Nat :=
  (List.range num_channels).foldl (fun d ch => storeOneSample pos len0 jbuf i ch d) data

/-- The full interleave loop of the playback copy (src/jopa.cpp lines 321-331). -/
def playbackLoop (pos len0 : Nat) (jbuf : Nat → Nat → Nat) (nframes : Nat)
    (data : Nat → Nat) : Nat → Nat :=
  (List.range nframes).foldl (fun d i => frameStore pos len0 jbuf i d) data

/-- One iteration of the capture/monitor de-interleave loop body
(src/jopa.cpp lines 353-363 and 385-395). -/
def loadOneSample (data : Nat → Nat) (pos len0 i ch : Nat) : Nat :=
  loadSampleAt data (sampleAddr pos len0 ((i * num_channels + ch) * sample_width))

/-- The inner channel loop of the capture/monitor copy for one frame. -/
def frameLoad (data : Nat → Nat) (pos len0 i : Nat) (buf : Nat → Nat → Nat) :
    Nat → Nat → Nat :=
  (List.range num_channels).foldl (fun b ch => upd2 b ch i (loadOneSample data pos len0 i ch)) buf

/-- The full de-interleave loop of the capture/monitor copy. -/
def captureLoop (data : Nat → Nat) (pos len0 : Nat) (nframes : Nat)
    (buf : Nat → Nat → Nat) : Nat → Nat → Nat :=
  (List.range nframes).foldl (fun b i => frameLoad data pos len0 i b) buf

/-- Playback block of JopaSession::jack_on_process (src/jopa.cpp lines
306-336): if the free space covers the period's byte requirement, interleave
through the write vector and advance the write pointer; otherwise write
nothing and print one overflow diagnostic. -/
def processPlayback (rb : Ringbuffer) (nframes : Nat) (jbuf : Nat → Nat → Nat) :
    Ringbuffer × List Report :=
  if buffer_required nframes ≤ rb.write_space then
    ({ rb with
        data := playbackLoop (rb.write_ptr % rb.size) rb.writeVec0Len jbuf nframes rb.data,
        write_ptr := rb.write_ptr + buffer_required nframes },
     [])
  else
    (rb, [Report.playbackOverflow])

/-- Capture/monitor block of JopaSession::jack_on_process (src/jopa.cpp lines
338-400): if the readable data covers the period's byte requirement,
de-interleave through the read vector into the port buffers and advance the
read pointer; otherwise leave everything untouched and print one underflow
diagnostic (uf is recordUnderflow for the capture ring, monitorUnderflow for
the monitor ring). -/
def processCapture (rb : Ringbuffer) (nframes : Nat) (buf : Nat → Nat → Nat)
    (uf : Report) : Ringbuffer × (Nat → Nat → Nat) × List Report :=
  if buffer_required nframes ≤ rb.read_space then
    (rb.read_advance (buffer_required nframes),
     captureLoop rb.data (rb.read_ptr % rb.size) rb.readVec0Len nframes buf,
     [])
  else
    (rb, buf, [uf])

/-- A queued (source port name, destination port name, connect|disconnect)
triple (struct JackConnectOperation, src/jopa.cpp lines 74-80). -/
structure JackConnectOperation where
  port_name_a : String
  port_name_b : String
  connect : Bool
deriving DecidableEq

/-- JopaSession::jack_schedule_connect: push onto the back of the queue
(src/jopa.cpp lines 703-710). -/
def jack_schedule_connect (queue : List JackConnectOperation)
    (op : JackConnectOperation) : List JackConnectOperation := queue ++ [op]

/-- A sequence of topology notifications, each appending one op. -/
def scheduleAll (queue ops : List JackConnectOperation) : List JackConnectOperation :=
  ops.foldl jack_schedule_connect queue

/-- JopaSession::jack_finish_connect (src/jopa.cpp lines 712-722): while the
queue is nonempty, issue jack_connect or jack_disconnect on the front
operation and pop it.  res models the int status returned by
jack_connect/jack_disconnect; the source discards that status.  Returns the
list of operations issued, in order, and the remaining queue. -/
def jack_finish_connect (res : JackConnectOperation → Int) :
    List JackConnectOperation → List JackConnectOperation × List JackConnectOperation
  | [] => ([], [])
  | op :: rest =>
    let r := res op
    let rest_result := jack_finish_connect res rest
    (op :: rest_result.1, rest_result.2)

/-- The three ring transports owned by the session. -/
structure SessionBuffers where
  playback_rb : Ringbuffer
  capture_rb : Ringbuffer
  monitor_rb : Ringbuffer

/-- Per-period inputs handed to the callback by the scheduler: the playback
input port buffers and the prior contents of the capture and monitor output
port buffers. -/
structure ProcessIn where
  play_in : Nat → Nat → Nat
  cap_prev : Nat → Nat → Nat
  mon_prev : Nat → Nat → Nat

/-- Per-period outcome of the callback. -/
structure ProcessOut where
  bufs : SessionBuffers
  cap_out : Nat → Nat → Nat
  mon_out : Nat → Nat → Nat
  applied : List JackConnectOperation
  queue : List JackConnectOperation
  reports : List Report

/-- JopaSession::jack_on_process (src/jopa.cpp lines 301-403): drain the
pending connection queue, then run the playback, capture and monitor copies. -/
def jack_on_process (res : JackConnectOperation → Int) (bufs : SessionBuffers)
    (queue : List JackConnectOperation) (nframes : Nat) (inp : ProcessIn) : ProcessOut where
  bufs :=
    { playback_rb := (processPlayback bufs.playback_rb nframes inp.play_in).1
      capture_rb := (processCapture bufs.capture_rb nframes inp.cap_prev Report.recordUnderflow).1
      monitor_rb := (processCapture bufs.monitor_rb nframes inp.mon_prev Report.monitorUnderflow).1 }
  cap_out := (processCapture bufs.capture_rb nframes inp.cap_prev Report.recordUnderflow).2.1
  mon_out := (processCapture bufs.monitor_rb nframes inp.mon_prev Report.monitorUnderflow).2.1
  applied := (jack_finish_connect res queue).1
  queue := (jack_finish_connect res queue).2
  reports :=
    (processPlayback bufs.playback_rb nframes inp.play_in).2
      ++ (processCapture bufs.capture_rb nframes inp.cap_prev Report.recordUnderflow).2.2
      ++ (processCapture bufs.monitor_rb nframes inp.mon_prev Report.monitorUnderflow).2.2

/-- Byte m of the payload a linear buffer would have produced by the
interleave: channel m / 4 % 2, frame m / 8, byte m % 4 of that sample. -/
def interleavedByte (jbuf : Nat → Nat → Nat) (m : Nat) : Nat :=
  sbyte (jbuf (m / sample_width % num_channels) (m / (sample_width * num_channels)))
    (m % sample_width)

/-- The byte at logical read offset m of a transport. -/
def logicalReadByte (rb : Ringbuffer) (m : Nat) : Nat :=
  rb.data ((rb.read_ptr + m) % rb.size)

/-- The sample a linear buffer would yield for frame i, channel ch when
de-interleaving the next period from the transport. -/
def deinterleavedSample (rb : Ringbuffer) (i ch : Nat) : Nat :=
  word32 (logicalReadByte rb ((i * num_channels + ch) * sample_width))
    (logicalReadByte rb ((i * num_channels + ch) * sample_width + 1))
    (logicalReadByte rb ((i * num_channels + ch) * sample_width + 2))
    (logicalReadByte rb ((i * num_channels + ch) * sample_width + 3))

/-- JopaSession::pulse_on_playback_writable (src/jopa.cpp lines 586-604):
nbytes is the final writable size granted by pa_stream_begin_write.  If the
transport holds at least nbytes readable bytes they are copied out; otherwise
the whole nbytes-byte reply is zero-filled, nothing is consumed from the
transport, and one underflow diagnostic is printed.  Returns the reply payload
handed to pa_stream_write, the transport afterwards, and the diagnostics. -/
def pulse_on_playback_writable (rb : Ringbuffer) (nbytes : Nat) :
    List Nat × Ringbuffer × List Report :=
  if nbytes ≤ rb.read_space then
    ((rb.readBytes nbytes).1, (rb.readBytes nbytes).2, [])
  else
    (List.replicate nbytes 0, rb, [Report.playbackUnderflow])

/-- A JACK port: owning client name and short name;
jack_port_name is client ++ ":" ++ short, jack_port_short_name is short. -/
structure JackPort where
  client : String
  short : String
deriving DecidableEq

/-- jack_port_name. -/
def JackPort.fullName (p : JackPort) : String := p.client ++ ":" ++ p.short

/-- std::strncmp(name, "system:", 7) == 0 (src/jopa.cpp lines 496, 506). -/
def isSystemName (s : String) : Bool := s.toList.take 7 == "system:".toList

/-- The bridge's capture ports as registered by init (src/jopa.cpp lines
183-190): client "JACK over PulseAudio", short names capture_1, capture_2. -/
def jopaCapturePorts : List JackPort :=
  [⟨"JACK over PulseAudio", "capture_1"⟩, ⟨"JACK over PulseAudio", "capture_2"⟩]

/-- The bridge's playback ports as registered by init (src/jopa.cpp lines
175-182): short names playback_1, playback_2. -/
def jopaPlaybackPorts : List JackPort :=
  [⟨"JACK over PulseAudio", "playback_1"⟩, ⟨"JACK over PulseAudio", "playback_2"⟩]

/-- JopaSession::jack_on_port_connect (src/jopa.cpp lines 483-521): if port a
is a system port whose short name matches one of the bridge's capture ports,
schedule one mirrored op from that capture port to b; if port b is a system
port whose short name matches one of the bridge's playback ports, schedule one
mirrored op from a to that playback port.  Returns the queue afterwards. -/
def jack_on_port_connect (queue : List JackConnectOperation) (a b : JackPort)
    (connect : Bool) : List JackConnectOperation :=
  let q1 :=
    if isSystemName a.fullName then
      match jopaCapturePorts.find? (fun p => decide (p.short = a.short)) with
      | some p => jack_schedule_connect queue ⟨p.fullName, b.fullName, connect⟩
      | none => queue
    else queue
  if isSystemName b.fullName then
    match jopaPlaybackPorts.find? (fun p => decide (p.short = b.short)) with
    | some p => jack_schedule_connect q1 ⟨a.fullName, p.fullName, connect⟩
    | none => q1
  else q1

/-- The op mirrored for the source endpoint of an event, if any. -/
def mirrorA (a b : JackPort) (connect : Bool) : List JackConnectOperation :=
  if isSystemName a.fullName then
    match jopaCapturePorts.find? (fun p => decide (p.short = a.short)) with
    | some p => [⟨p.fullName, b.fullName, connect⟩]
    | none => []
  else []

/-- The op mirrored for the destination endpoint of an event, if any. -/
def mirrorB (a b : JackPort) (connect : Bool) : List JackConnectOperation :=
  if isSystemName b.fullName then
    match jopaPlaybackPorts.find? (fun p => decide (p.short = b.short)) with
    | some p => [⟨a.fullName, p.fullName, connect⟩]
    | none => []
  else []

/-- Amended-claim view of the mirroring policy: one op per matching endpoint,
source endpoint first. -/
def specMirroredOps (a b : JackPort) (connect : Bool) : List JackConnectOperation :=
  mirrorA a b connect ++ mirrorB a b connect

/-- The three ring transports as a tuple, for the allocation claims. -/
structure Rings where
  playback : Ringbuffer
  capture : Ringbuffer
  monitor : Ringbuffer

/-- Ring allocation in JopaSession::init (src/jopa.cpp lines 200-212). -/
def initRings (bufsize : Nat) : Rings :=
  ⟨Ringbuffer.create (ringCapacity bufsize),
   Ringbuffer.create (ringCapacity bufsize),
   Ringbuffer.create (ringCapacity bufsize)⟩

/-- Ring replacement in JopaSession::jack_on_buffer_size (src/jopa.cpp lines
429-447): each old ring is freed and a fresh ring is created from the new
period size; the old rings are never consulted (destroy and recreate, not
resize). -/
def jack_on_buffer_size_rings (_old : Rings) (nframes : Nat) : Rings :=
  ⟨Ringbuffer.create (ringCapacity nframes),
   Ringbuffer.create (ringCapacity nframes),
   Ringbuffer.create (ringCapacity nframes)⟩

/-- The lock-relevant actions of the two reconfiguration handlers. -/
inductive LockAction where
  | lock : LockAction
  | unlock : LockAction
  | setBufferSizeField : LockAction
  | setPlaybackBufferAttr : LockAction
  | setRecordBufferAttr : LockAction
  | setMonitorBufferAttr : LockAction
  | replaceRings : LockAction
  | setSampleRateField : LockAction
  | updatePlaybackRate : LockAction
  | updateRecordRate : LockAction
  | updateMonitorRate : LockAction
deriving DecidableEq

/-- Action sequence of JopaSession::jack_on_buffer_size (src/jopa.cpp lines
405-454).  The statement `PulseThreadedMainloopLocker(self->pulse_mainloop);`
at line 407 constructs an unnamed temporary, not a named local: by the C++
lifetime rules for temporaries its destructor, which unlocks the mainloop,
runs at the end of that same full-expression, so the trace is lock then
unlock before any shared state is touched.  Only the ring-replacement block
(lines 430-447) declares a named locker and is bracketed for its duration. -/
def jack_on_buffer_size_trace : List LockAction :=
  [LockAction.lock, LockAction.unlock,
   LockAction.setBufferSizeField,
   LockAction.setPlaybackBufferAttr, LockAction.setRecordBufferAttr,
   LockAction.setMonitorBufferAttr,
   LockAction.lock, LockAction.replaceRings, LockAction.unlock]

/-- Action sequence of JopaSession::jack_on_sample_rate (src/jopa.cpp lines
456-481); the guard at line 458 is the same unnamed temporary, so the whole
handler body runs after the unlock. -/
def jack_on_sample_rate_trace : List LockAction :=
  [LockAction.lock, LockAction.unlock,
   LockAction.setSampleRateField,
   LockAction.updatePlaybackRate, LockAction.updateRecordRate,
   LockAction.updateMonitorRate]

/-- Lock-depth contribution of one action. -/
def lockDelta : LockAction → Int
  | LockAction.lock => 1
  | LockAction.unlock => -1
  | _ => 0

/-- Lock depth in force when the i-th action of a trace runs. -/
def depthBefore (tr : List LockAction) (i : Nat) : Int :=
  ((tr.take i).map lockDelta).sum

/-- Whether an action touches shared Buffer Attributes / sample-rate state or
replaces ring transports. -/
def touchesSharedConfig : LockAction → Bool
  | LockAction.setBufferSizeField => true
  | LockAction.setPlaybackBufferAttr => true
  | LockAction.setRecordBufferAttr => true
  | LockAction.setMonitorBufferAttr => true
  | LockAction.replaceRings => true
  | LockAction.setSampleRateField => true
  | LockAction.updatePlaybackRate => true
  | LockAction.updateRecordRate => true
  | LockAction.updateMonitorRate => true
  | _ => false

/-- Concrete transport for the C1 counterexample: capacity 16, 4 readable
bytes whose first byte is 7 (nonzero), while the stream asks for 8. -/
def rbC1 : Ringbuffer := ⟨16, fun i => if i = 0 then 7 else 0, 0, 4⟩

/-- Concrete playback transport for the C3 witness: capacity 16, empty, with
both pointers at 12 so that an 8-byte period write straddles the wrap point. -/
def rbWitnessPlay : Ringbuffer := ⟨16, fun _ => 0, 12, 12⟩

/-- Concrete playback transport for the C2 witness overflow case: capacity 8
with only 4 bytes of write space. -/
def rbWitnessOver : Ringbuffer := ⟨8, fun _ => 0, 0, 4⟩

/-- Concrete capture transport for the C8 witness: capacity 16 with 8 readable
bytes starting at physical index 12, so the read straddles the wrap point. -/
def rbWitnessCap : Ringbuffer := ⟨16, fun i => i % 256, 12, 20⟩

/-- Concrete monitor transport for the C8 witness: only 4 readable bytes. -/
def rbWitnessMon : Ringbuffer := ⟨16, fun _ => 0, 0, 4⟩

/-- Concrete playback port samples for witnesses. -/
def jbufEx : Nat → Nat → Nat := fun ch i => 1 + ch + 2 * i

/-- Concrete blank port buffer for witnesses. -/
def bufEx0 : Nat → Nat → Nat := fun _ _ => 0

/-- Session buffers for the C3 witness. -/
def bufsWitnessC3 : SessionBuffers := ⟨rbWitnessPlay, rbWitnessCap, rbWitnessMon⟩

/-- Session buffers for the C2 witness. -/
def bufsWitnessC2 : SessionBuffers := ⟨rbWitnessOver, rbWitnessCap, rbWitnessMon⟩

/-- Session buffers for the C8 witness. -/
def bufsWitnessC8 : SessionBuffers := ⟨rbWitnessPlay, rbWitnessCap, rbWitnessMon⟩

/-- Per-period inputs for witnesses. -/
def inpEx : ProcessIn := ⟨jbufEx, bufEx0, bufEx0⟩

/-- Status oracle for witnesses: every jack_connect/jack_disconnect reports 0. -/
def resEx : JackConnectOperation → Int := fun _ => 0

/-- The system capture port of the C5 counterexample event. -/
def portSysCap1 : JackPort := ⟨"system", "capture_1"⟩

/-- The system playback port of the C5 counterexample event. -/
def portSysPlay1 : JackPort := ⟨"system", "playback_1"⟩

theorem upd_apply (f : Nat → Nat) (k v p : Nat) :
    upd f k v p = if p = k then v else f p := rfl

theorem storeSampleAt_apply (d : Nat → Nat) (b v p : Nat) :
    storeSampleAt d b v p =
      if p = b + 3 then sbyte v 3 else if p = b + 2 then sbyte v 2
      else if p = b + 1 then sbyte v 1 else if p = b then sbyte v 0 else d p := rfl

theorem storeSampleAt_at (d : Nat → Nat) (b v k : Nat) (hk : k < 4) :
    storeSampleAt d b v (b + k) = sbyte v k := by
  interval_cases k
  · rw [storeSampleAt_apply, if_neg (by omega), if_neg (by omega), if_neg (by omega),
      if_pos (by omega)]
  · rw [storeSampleAt_apply, if_neg (by omega), if_neg (by omega), if_pos rfl]
  · rw [storeSampleAt_apply, if_neg (by omega), if_pos rfl]
  · rw [storeSampleAt_apply, if_pos rfl]

theorem storeSampleAt_ne (d : Nat → Nat) (b v p : Nat)
    (h0 : p ≠ b) (h1 : p ≠ b + 1) (h2 : p ≠ b + 2) (h3 : p ≠ b + 3) :
    storeSampleAt d b v p = d p := by
  rw [storeSampleAt_apply, if_neg h3, if_neg h2, if_neg h1, if_neg h0]

theorem upd2_same (f : Nat → Nat → Nat) (c i v : Nat) : upd2 f c i v c i = v := by
  simp [upd2]

theorem upd2_ne (f : Nat → Nat → Nat) (c i v c2 i2 : Nat) (h : ¬(c2 = c ∧ i2 = i)) :
    upd2 f c i v c2 i2 = f c2 i2 := by
  simp only [upd2, if_neg h]

/-- The split-vector branch places byte k of the sample at logical offset
`offset` exactly where the linear-position rule p % size places it, provided
the physical start and the capacity are sample-aligned and the sample fits in
the available span. -/
theorem sampleAddr_byte_eq (size pos avail offset k : Nat)
    (hs4 : 4 ∣ size) (hp4 : 4 ∣ pos) (hlt : pos < size) (hav : avail ≤ size)
    (ho4 : 4 ∣ offset) (hk : k < 4) (hof : offset + 4 ≤ avail) :
    sampleAddr pos (min avail (size - pos)) offset + k = (pos + offset + k) % size := by
  have hd1 : min avail (size - pos) ≤ avail := Nat.min_le_left _ _
  have hd2 : min avail (size - pos) ≤ size - pos := Nat.min_le_right _ _
  rcases Nat.le_total avail (size - pos) with hmm | hmm
  · have hmin : min avail (size - pos) = avail := Nat.min_eq_left hmm
    rw [sampleAddr, hmin, if_pos (by omega)]
    have hfit : pos + offset + k < size := by omega
    rw [Nat.mod_eq_of_lt hfit]
  · have hmin : min avail (size - pos) = size - pos := Nat.min_eq_right hmm
    rw [sampleAddr, hmin]
    by_cases hbr : offset < size - pos
    · rw [if_pos hbr]
      have h4sub : 4 ∣ (size - pos) := Nat.dvd_sub' hs4 hp4
      have hfit : pos + offset + k < size := by omega
      rw [Nat.mod_eq_of_lt hfit]
    · rw [if_neg hbr]
      have hge : size ≤ pos + offset + k := by omega
      have hlt2 : pos + offset + k - size < size := by omega
      rw [Nat.mod_eq_sub_mod hge, Nat.mod_eq_of_lt hlt2]
      omega

/-- Distinct logical offsets within one capacity window land at distinct
physical indices. -/
theorem mod_window_inj (size pos m m2 : Nat) (hm : m < size) (hm2 : m2 < size)
    (hne : m ≠ m2) : (pos + m) % size ≠ (pos + m2) % size := by
  intro h
  have hmod : Nat.ModEq size (pos + m) (pos + m2) := h
  have h2 : Nat.ModEq size m m2 := Nat.ModEq.add_left_cancel' pos hmod
  have h3 : m % size = m2 % size := h2
  rw [Nat.mod_eq_of_lt hm, Nat.mod_eq_of_lt hm2] at h3
  exact hne h3

/-- Variant of mod_window_inj matching left-associated address terms. -/
theorem mod_window_inj3 (size pos a b a2 b2 : Nat) (h1 : a + b < size)
    (h2 : a2 + b2 < size) (hne : a + b ≠ a2 + b2) :
    (pos + a + b) % size ≠ (pos + a2 + b2) % size := by
  rw [Nat.add_assoc, Nat.add_assoc]
  exact mod_window_inj size pos (a + b) (a2 + b2) h1 h2 hne

theorem scheduleAll_eq (q ops : List JackConnectOperation) :
    scheduleAll q ops = q ++ ops := by
  induction ops generalizing q with
  | nil => simp [scheduleAll]
  | cons op rest ih =>
    have h1 : scheduleAll q (op :: rest) = scheduleAll (q ++ [op]) rest := rfl
    rw [h1, ih]
    simp

theorem jack_finish_connect_drain (res : JackConnectOperation → Int)
    (q : List JackConnectOperation) : jack_finish_connect res q = (q, []) := by
  induction q with
  | nil => rfl
  | cons op rest ih => simp [jack_finish_connect, ih]

theorem frameStore_eq (pos len0 : Nat) (jbuf : Nat → Nat → Nat) (i : Nat)
    (d : Nat → Nat) :
    frameStore pos len0 jbuf i d =
      storeOneSample pos len0 jbuf i 1 (storeOneSample pos len0 jbuf i 0 d) := rfl

theorem frameLoad_eq (data : Nat → Nat) (pos len0 i : Nat) (b : Nat → Nat → Nat) :
    frameLoad data pos len0 i b =
      upd2 (upd2 b 0 i (loadOneSample data pos len0 i 0)) 1 i
        (loadOneSample data pos len0 i 1) := rfl

theorem playbackLoop_succ (pos len0 : Nat) (jbuf : Nat → Nat → Nat) (n : Nat)
    (d : Nat → Nat) :
    playbackLoop pos len0 jbuf (n + 1) d =
      frameStore pos len0 jbuf n (playbackLoop pos len0 jbuf n d) := by
  simp [playbackLoop, List.range_succ]

theorem captureLoop_succ (data : Nat → Nat) (pos len0 n : Nat) (b : Nat → Nat → Nat) :
    captureLoop data pos len0 (n + 1) b =
      frameLoad data pos len0 n (captureLoop data pos len0 n b) := by
  simp [captureLoop, List.range_succ]

theorem storeOneSample_get_eq (size pos avail : Nat) (jbuf : Nat → Nat → Nat)
    (i ch k : Nat) (data : Nat → Nat)
    (hs4 : 4 ∣ size) (hp4 : 4 ∣ pos) (hlt : pos < size) (hav : avail ≤ size)
    (hk : k < 4) (hof : (i * num_channels + ch) * sample_width + 4 ≤ avail) :
    storeOneSample pos (min avail (size - pos)) jbuf i ch data
      ((pos + (i * num_channels + ch) * sample_width + k) % size)
      = sbyte (jbuf ch i) k := by
  have ho4 : 4 ∣ (i * num_channels + ch) * sample_width := by
    rw [sample_width]; exact dvd_mul_left 4 _
  have haddr := sampleAddr_byte_eq size pos avail ((i * num_channels + ch) * sample_width) k
    hs4 hp4 hlt hav ho4 hk hof
  simp only [storeOneSample]
  rw [← haddr]
  exact storeSampleAt_at _ _ _ _ hk

theorem storeOneSample_get_ne (size pos avail : Nat) (jbuf : Nat → Nat → Nat)
    (i ch : Nat) (data : Nat → Nat) (p : Nat)
    (hs4 : 4 ∣ size) (hp4 : 4 ∣ pos) (hlt : pos < size) (hav : avail ≤ size)
    (hof : (i * num_channels + ch) * sample_width + 4 ≤ avail)
    (hne : ∀ k, k < 4 → p ≠ (pos + (i * num_channels + ch) * sample_width + k) % size) :
    storeOneSample pos (min avail (size - pos)) jbuf i ch data p = data p := by
  have ho4 : 4 ∣ (i * num_channels + ch) * sample_width := by
    rw [sample_width]; exact dvd_mul_left 4 _
  have haddr : ∀ k, k < 4 →
      sampleAddr pos (min avail (size - pos)) ((i * num_channels + ch) * sample_width) + k
        = (pos + (i * num_channels + ch) * sample_width + k) % size := fun k hk =>
    sampleAddr_byte_eq size pos avail ((i * num_channels + ch) * sample_width) k
      hs4 hp4 hlt hav ho4 hk hof
  simp only [storeOneSample]
  apply storeSampleAt_ne
  · have h := haddr 0 (by omega)
    rw [Nat.add_zero] at h
    rw [h]; exact hne 0 (by omega)
  · rw [haddr 1 (by omega)]; exact hne 1 (by omega)
  · rw [haddr 2 (by omega)]; exact hne 2 (by omega)
  · rw [haddr 3 (by omega)]; exact hne 3 (by omega)

theorem frameStore_get_eq (size pos avail : Nat) (jbuf : Nat → Nat → Nat)
    (i ch k : Nat) (data : Nat → Nat)
    (hs4 : 4 ∣ size) (hp4 : 4 ∣ pos) (hlt : pos < size) (hav : avail ≤ size)
    (hch : ch < num_channels) (hk : k < 4)
    (hof : (i * num_channels + 1) * sample_width + 4 ≤ avail) :
    frameStore pos (min avail (size - pos)) jbuf i data
      ((pos + (i * num_channels + ch) * sample_width + k) % size)
      = sbyte (jbuf ch i) k := by
  rw [frameStore_eq]
  have hch2 : ch = 0 ∨ ch = 1 := by
    simp only [num_channels] at hch; omega
  rcases hch2 with hch0 | hch1
  · subst hch0
    rw [storeOneSample_get_ne size pos avail jbuf i 1 _ _ hs4 hp4 hlt hav hof ?_]
    · exact storeOneSample_get_eq size pos avail jbuf i 0 k data hs4 hp4 hlt hav hk
        (by simp only [num_channels, sample_width] at *; omega)
    · intro k2 hk2
      apply mod_window_inj3
      · simp only [num_channels, sample_width] at *; omega
      · simp only [num_channels, sample_width] at *; omega
      · simp only [num_channels, sample_width] at *; omega
  · subst hch1
    exact storeOneSample_get_eq size pos avail jbuf i 1 k _ hs4 hp4 hlt hav hk hof

theorem frameStore_get_ne (size pos avail : Nat) (jbuf : Nat → Nat → Nat)
    (i : Nat) (data : Nat → Nat) (p : Nat)
    (hs4 : 4 ∣ size) (hp4 : 4 ∣ pos) (hlt : pos < size) (hav : avail ≤ size)
    (hof : (i * num_channels + 1) * sample_width + 4 ≤ avail)
    (hne : ∀ ch k, ch < num_channels → k < 4 →
      p ≠ (pos + (i * num_channels + ch) * sample_width + k) % size) :
    frameStore pos (min avail (size - pos)) jbuf i data p = data p := by
  rw [frameStore_eq]
  rw [storeOneSample_get_ne size pos avail jbuf i 1 _ p hs4 hp4 hlt hav hof
    (fun k hk => hne 1 k (by simp only [num_channels]; omega) hk)]
  exact storeOneSample_get_ne size pos avail jbuf i 0 data p hs4 hp4 hlt hav
    (by simp only [num_channels, sample_width] at *; omega)
    (fun k hk => hne 0 k (by simp only [num_channels]; omega) hk)

/-- Pointwise correctness of the playback interleave loop: the byte written
for frame i, channel ch, byte k lands at the linear physical position, across
the wrap split, provided the physical start and the capacity are
sample-aligned and the whole period fits in the available space. -/
theorem playbackLoop_interleaves (size pos avail : Nat) (jbuf : Nat → Nat → Nat)
    (hs4 : 4 ∣ size) (hp4 : 4 ∣ pos) (hlt : pos < size) (hav : avail ≤ size) :
    ∀ n, buffer_required n ≤ avail → ∀ data : Nat → Nat,
      ∀ i, i < n → ∀ ch, ch < num_channels → ∀ k, k < 4 →
      playbackLoop pos (min avail (size - pos)) jbuf n data
        ((pos + (i * num_channels + ch) * sample_width + k) % size)
        = sbyte (jbuf ch i) k := by
  intro n
  induction n with
  | zero => intro _ _ i hi; omega
  | succ n ih =>
    intro hreq data i hi ch hch k hk
    rw [playbackLoop_succ]
    have hreqn : buffer_required n ≤ avail := by
      simp only [buffer_required, num_channels, sample_width] at *; omega
    have hofn : (n * num_channels + 1) * sample_width + 4 ≤ avail := by
      simp only [buffer_required, num_channels, sample_width] at *; omega
    by_cases hin : i < n
    · rw [frameStore_get_ne size pos avail jbuf n _ _ hs4 hp4 hlt hav hofn ?_]
      · exact ih hreqn data i hin ch hch k hk
      · intro ch2 k2 hch2 hk2
        apply mod_window_inj3
        · simp only [buffer_required, num_channels, sample_width] at *; omega
        · simp only [buffer_required, num_channels, sample_width] at *; omega
        · simp only [buffer_required, num_channels, sample_width] at *; omega
    · have hieq : i = n := by omega
      subst hieq
      exact frameStore_get_eq size pos avail jbuf i ch k _ hs4 hp4 hlt hav hch hk hofn

/-- Pointwise characterization of the de-interleave loop: each port-buffer
entry inside the period receives exactly its loop-body load; entries outside
the period are untouched by construction of upd2. -/
theorem captureLoop_value (data : Nat → Nat) (pos len0 : Nat) :
    ∀ n, ∀ buf : Nat → Nat → Nat, ∀ i, i < n → ∀ ch, ch < num_channels →
      captureLoop data pos len0 n buf ch i = loadOneSample data pos len0 i ch := by
  intro n
  induction n with
  | zero => intro _ i hi; omega
  | succ n ih =>
    intro buf i hi ch hch
    rw [captureLoop_succ, frameLoad_eq]
    simp only [upd2]
    by_cases hin : i < n
    · rw [if_neg (by omega), if_neg (by omega)]
      exact ih buf i hin ch hch
    · have hieq : i = n := by omega
      subst hieq
      have hch2 : ch = 0 ∨ ch = 1 := by
        simp only [num_channels] at hch; omega
      rcases hch2 with h0 | h1
      · subst h0
        rw [if_neg (by omega), if_pos ⟨rfl, rfl⟩]
      · subst h1
        rw [if_pos ⟨rfl, rfl⟩]

/-- The loop-body load through the split read vector equals the
de-interleaved sample a linear buffer would yield, under sample alignment. -/
theorem loadOneSample_eq (rb : Ringbuffer) (n i ch : Nat)
    (hs4 : 4 ∣ rb.size) (hr4 : 4 ∣ rb.read_ptr) (hle : rb.read_space ≤ rb.size)
    (hreq : buffer_required n ≤ rb.read_space) (hi : i < n) (hch : ch < num_channels) :
    loadOneSample rb.data (rb.read_ptr % rb.size) rb.readVec0Len i ch
      = deinterleavedSample rb i ch := by
  have hsz : 0 < rb.size := by
    simp only [buffer_required, num_channels, sample_width] at hreq
    omega
  have hpos4 : 4 ∣ rb.read_ptr % rb.size := (Nat.dvd_mod_iff hs4).mpr hr4
  have hlt : rb.read_ptr % rb.size < rb.size := Nat.mod_lt _ hsz
  have ho4 : 4 ∣ (i * num_channels + ch) * sample_width := by
    rw [sample_width]; exact dvd_mul_left 4 _
  have hof : (i * num_channels + ch) * sample_width + 4 ≤ rb.read_space := by
    simp only [buffer_required, num_channels, sample_width] at *; omega
  have key : ∀ k, k < 4 →
      rb.data (sampleAddr (rb.read_ptr % rb.size)
          (min rb.read_space (rb.size - rb.read_ptr % rb.size))
          ((i * num_channels + ch) * sample_width) + k)
        = logicalReadByte rb ((i * num_channels + ch) * sample_width + k) := by
    intro k hk
    have haddr := sampleAddr_byte_eq rb.size (rb.read_ptr % rb.size) rb.read_space
      ((i * num_channels + ch) * sample_width) k hs4 hpos4 hlt hle ho4 hk hof
    rw [haddr, logicalReadByte]
    congr 1
    rw [Nat.add_assoc, Nat.mod_add_mod]
  have k0 := key 0 (by omega)
  have k1 := key 1 (by omega)
  have k2 := key 2 (by omega)
  have k3 := key 3 (by omega)
  simp only [Nat.add_zero] at k0
  simp only [loadOneSample, loadSampleAt, deinterleavedSample, Ringbuffer.readVec0Len]
  rw [k0, k1, k2, k3]

/-- Byte-level correctness of the playback block in the sufficient-space
case: after the interleave, logical write offset m of the transport holds
byte m of the linear interleaved payload. -/
theorem processPlayback_data_byte (rb : Ringbuffer) (nframes : Nat)
    (jbuf : Nat → Nat → Nat) (hs4 : 4 ∣ rb.size) (hw4 : 4 ∣ rb.write_ptr)
    (hreq : buffer_required nframes ≤ rb.write_space) :
    ∀ m, m < buffer_required nframes →
      (processPlayback rb nframes jbuf).1.data ((rb.write_ptr + m) % rb.size)
        = interleavedByte jbuf m := by
  intro m hm
  have hle : rb.write_space ≤ rb.size := Nat.sub_le _ _
  have hsz : 0 < rb.size := by
    simp only [buffer_required, num_channels, sample_width] at hm hreq
    omega
  have hpos4 : 4 ∣ rb.write_ptr % rb.size := (Nat.dvd_mod_iff hs4).mpr hw4
  have hlt : rb.write_ptr % rb.size < rb.size := Nat.mod_lt _ hsz
  have hi : m / (sample_width * num_channels) < nframes := by
    simp only [buffer_required, num_channels, sample_width] at *; omega
  have hch : m / sample_width % num_channels < num_channels := by
    simp only [num_channels, sample_width]; omega
  have hk : m % sample_width < 4 := by
    simp only [sample_width]; omega
  have hsum : (m / (sample_width * num_channels) * num_channels
      + m / sample_width % num_channels) * sample_width + m % sample_width = m := by
    simp only [num_channels, sample_width]; omega
  have key := playbackLoop_interleaves rb.size (rb.write_ptr % rb.size) rb.write_space
    jbuf hs4 hpos4 hlt hle nframes hreq rb.data
    (m / (sample_width * num_channels)) hi (m / sample_width % num_channels) hch
    (m % sample_width) hk
  have haddr : (rb.write_ptr % rb.size
        + (m / (sample_width * num_channels) * num_channels
          + m / sample_width % num_channels) * sample_width + m % sample_width) % rb.size
      = (rb.write_ptr + m) % rb.size := by
    rw [Nat.add_assoc, hsum, Nat.mod_add_mod]
  rw [haddr] at key
  simp only [processPlayback, if_pos hreq, Ringbuffer.writeVec0Len]
  rw [key]
  simp only [interleavedByte]

/-- Reports other than its own overflow tag never come from the playback
block. -/
theorem processPlayback_count (rb : Ringbuffer) (n : Nat) (jbuf : Nat → Nat → Nat)
    (x : Report) (h : x ≠ Report.playbackOverflow) :
    ((processPlayback rb n jbuf).2).count x = 0 := by
  simp only [processPlayback]
  split
  · simp
  · simp [List.count_cons, Ne.symm h]

/-- Reports other than its own underflow tag never come from a
capture/monitor block. -/
theorem processCapture_count (rb : Ringbuffer) (n : Nat) (buf : Nat → Nat → Nat)
    (uf x : Report) (h : x ≠ uf) :
    ((processCapture rb n buf uf).2.2).count x = 0 := by
  simp only [processCapture]
  split
  · simp
  · simp [List.count_cons, Ne.symm h]

/-- The port-connect handler appends exactly the per-endpoint mirrored ops,
source endpoint first, to the back of the queue. -/
theorem jack_on_port_connect_eq (queue : List JackConnectOperation) (a b : JackPort)
    (c : Bool) :
    jack_on_port_connect queue a b c = queue ++ specMirroredOps a b c := by
  simp only [jack_on_port_connect, specMirroredOps, mirrorA, mirrorB,
    jack_schedule_connect]
  cases ha : isSystemName a.fullName <;> cases hb : isSystemName b.fullName <;>
    cases hf : jopaCapturePorts.find? (fun p => decide (p.short = a.short)) <;>
      cases hg : jopaPlaybackPorts.find? (fun p => decide (p.short = b.short)) <;>
        simp [hf, hg]

/-- The capture/monitor block in the insufficient-data case changes nothing
and reports one underflow. -/
theorem processCapture_insufficient (rb : Ringbuffer) (n : Nat)
    (buf : Nat → Nat → Nat) (uf : Report) (h : rb.read_space < buffer_required n) :
    processCapture rb n buf uf = (rb, buf, [uf]) := by
  have hif : ¬ (buffer_required n ≤ rb.read_space) := by omega
  simp only [processCapture, if_neg hif]

/-- The capture/monitor block in the sufficient-data case consumes exactly
the period's bytes and de-interleaves them into the port buffers. -/
theorem processCapture_sufficient (rb : Ringbuffer) (n : Nat)
    (buf : Nat → Nat → Nat) (uf : Report)
    (hs4 : 4 ∣ rb.size) (hr4 : 4 ∣ rb.read_ptr) (hle : rb.read_space ≤ rb.size)
    (h : buffer_required n ≤ rb.read_space) :
    (processCapture rb n buf uf).1 = rb.read_advance (buffer_required n) ∧
    (processCapture rb n buf uf).2.2 = [] ∧
    ∀ ch, ch < num_channels → ∀ i, i < n →
      (processCapture rb n buf uf).2.1 ch i = deinterleavedSample rb i ch := by
  refine ⟨?_, ?_, ?_⟩
  · simp only [processCapture, if_pos h]
  · simp only [processCapture, if_pos h]
  · intro ch hch i hi
    simp only [processCapture, if_pos h]
    rw [captureLoop_value rb.data _ _ n buf i hi ch hch]
    exact loadOneSample_eq rb n i ch hs4 hr4 hle h hi hch

/-- Claim C1 (amended): when the playback write-ready callback is asked for n
bytes while the transport holds r < n readable bytes, the code delivers a
full n-byte reply consisting entirely of zero bytes, leaves the r available
bytes unread in the transport, and reports exactly one underflow. -/
theorem c1_playback_writable_zero_fill (rb : Ringbuffer) (n : Nat)
    (h : rb.read_space < n) :
    pulse_on_playback_writable rb n
      = (List.replicate n 0, rb, [Report.playbackUnderflow]) := by
  have hif : ¬ (n ≤ rb.read_space) := by omega
  simp only [pulse_on_playback_writable, if_neg hif]

/-- Claim C1 counterexample: with 4 readable bytes whose first byte is 7 and
a request for 8 bytes, the reply is 8 zero bytes: the 4 available bytes are
not delivered (the first 4 bytes of the reply differ from them), and the
transport is left unconsumed. -/
theorem c1_counterexample :
    rbC1.read_space = 4 ∧ rbC1.read_space < 8 ∧
    rbC1.peekBytes rbC1.read_space = [7, 0, 0, 0] ∧
    (pulse_on_playback_writable rbC1 8).1 = List.replicate 8 0 ∧
    (pulse_on_playback_writable rbC1 8).2.1 = rbC1 ∧
    ¬((pulse_on_playback_writable rbC1 8).1.take 4 = rbC1.peekBytes rbC1.read_space) :=
  ⟨by decide, by decide, by decide, by decide, rfl, by decide⟩

/-- Claim C1 witness at a concrete input. -/
theorem c1_witness :
    rbC1.read_space < 8 ∧
    pulse_on_playback_writable rbC1 8
      = (List.replicate 8 0, rbC1, [Report.playbackUnderflow]) :=
  ⟨by decide, c1_playback_writable_zero_fill rbC1 8 (by decide)⟩

/-- Claim C2: in a graph-period callback, if the playback transport's write
space is smaller than the period's byte requirement then the transport is
unchanged (pointers and contents) and exactly one overflow is reported;
otherwise exactly the period's bytes are written (write pointer advanced by
that amount, read side untouched) and no overflow is reported. -/
theorem c2_playback_overflow_policy (res : JackConnectOperation → Int)
    (bufs : SessionBuffers) (queue : List JackConnectOperation) (nframes : Nat)
    (inp : ProcessIn) :
    (bufs.playback_rb.write_space < buffer_required nframes →
      (jack_on_process res bufs queue nframes inp).bufs.playback_rb = bufs.playback_rb ∧
      ((jack_on_process res bufs queue nframes inp).reports).count
        Report.playbackOverflow = 1) ∧
    (buffer_required nframes ≤ bufs.playback_rb.write_space →
      (jack_on_process res bufs queue nframes inp).bufs.playback_rb.write_ptr
        = bufs.playback_rb.write_ptr + buffer_required nframes ∧
      (jack_on_process res bufs queue nframes inp).bufs.playback_rb.read_ptr
        = bufs.playback_rb.read_ptr ∧
      (jack_on_process res bufs queue nframes inp).bufs.playback_rb.size
        = bufs.playback_rb.size ∧
      ((jack_on_process res bufs queue nframes inp).reports).count
        Report.playbackOverflow = 0) := by
  have hc := processCapture_count bufs.capture_rb nframes inp.cap_prev
    Report.recordUnderflow Report.playbackOverflow (by decide)
  have hm := processCapture_count bufs.monitor_rb nframes inp.mon_prev
    Report.monitorUnderflow Report.playbackOverflow (by decide)
  constructor
  · intro h
    have hif : ¬ buffer_required nframes ≤ bufs.playback_rb.write_space := by omega
    constructor
    · show (processPlayback bufs.playback_rb nframes inp.play_in).1 = bufs.playback_rb
      simp only [processPlayback, if_neg hif]
    · show ((processPlayback bufs.playback_rb nframes inp.play_in).2
          ++ (processCapture bufs.capture_rb nframes inp.cap_prev Report.recordUnderflow).2.2
          ++ (processCapture bufs.monitor_rb nframes inp.mon_prev Report.monitorUnderflow).2.2).count
            Report.playbackOverflow = 1
      rw [List.count_append, List.count_append, hc, hm]
      simp only [processPlayback, if_neg hif]
      decide
  · intro h
    refine ⟨?_, ?_, ?_, ?_⟩
    · show (processPlayback bufs.playback_rb nframes inp.play_in).1.write_ptr
        = bufs.playback_rb.write_ptr + buffer_required nframes
      simp only [processPlayback, if_pos h]
    · show (processPlayback bufs.playback_rb nframes inp.play_in).1.read_ptr
        = bufs.playback_rb.read_ptr
      simp only [processPlayback, if_pos h]
    · show (processPlayback bufs.playback_rb nframes inp.play_in).1.size
        = bufs.playback_rb.size
      simp only [processPlayback, if_pos h]
    · show ((processPlayback bufs.playback_rb nframes inp.play_in).2
          ++ (processCapture bufs.capture_rb nframes inp.cap_prev Report.recordUnderflow).2.2
          ++ (processCapture bufs.monitor_rb nframes inp.mon_prev Report.monitorUnderflow).2.2).count
            Report.playbackOverflow = 0
      rw [List.count_append, List.count_append, hc, hm]
      simp only [processPlayback, if_pos h]
      decide

/-- Claim C2 witness at a concrete input (overflow case, then sufficient
case). -/
theorem c2_witness :
    (bufsWitnessC2.playback_rb.write_space < buffer_required 1 ∧
      (jack_on_process resEx bufsWitnessC2 [] 1 inpEx).bufs.playback_rb
        = bufsWitnessC2.playback_rb ∧
      ((jack_on_process resEx bufsWitnessC2 [] 1 inpEx).reports).count
        Report.playbackOverflow = 1) ∧
    (buffer_required 1 ≤ bufsWitnessC3.playback_rb.write_space ∧
      (jack_on_process resEx bufsWitnessC3 [] 1 inpEx).bufs.playback_rb.write_ptr
        = bufsWitnessC3.playback_rb.write_ptr + buffer_required 1) :=
  ⟨⟨by decide,
    (c2_playback_overflow_policy resEx bufsWitnessC2 [] 1 inpEx).1 (by decide)⟩,
   ⟨by decide,
    ((c2_playback_overflow_policy resEx bufsWitnessC3 [] 1 inpEx).2 (by decide)).1⟩⟩

/-- Claim C4: ops enqueued by topology notifications are applied by the next
period's callback in FIFO order, each exactly once, none dropped or
reordered, and the queue is empty after the drain. -/
theorem c4_fifo_drain (res : JackConnectOperation → Int) (bufs : SessionBuffers)
    (q0 ops : List JackConnectOperation) (nframes : Nat) (inp : ProcessIn) :
    (jack_on_process res bufs (scheduleAll q0 ops) nframes inp).applied = q0 ++ ops ∧
    (jack_on_process res bufs (scheduleAll q0 ops) nframes inp).queue = [] := by
  have h := jack_finish_connect_drain res (scheduleAll q0 ops)
  constructor
  · show (jack_finish_connect res (scheduleAll q0 ops)).1 = q0 ++ ops
    rw [h, scheduleAll_eq]
  · show (jack_finish_connect res (scheduleAll q0 ops)).2 = []
    rw [h]

/-- Claim C5 counterexample: the event connecting system:capture_1 to
system:playback_1 names matching system ports on both endpoints, and the
handler enqueues two mirrored ops, not exactly one. -/
theorem c5_counterexample :
    (jack_on_port_connect [] portSysCap1 portSysPlay1 true).length = 2 ∧
    jack_on_port_connect [] portSysCap1 portSysPlay1 true
      = [⟨"JACK over PulseAudio:capture_1", "system:playback_1", true⟩,
         ⟨"system:capture_1", "JACK over PulseAudio:playback_1", true⟩] := by
  constructor
  · decide
  · decide

/-- Claim C5 (amended): the handler appends exactly one mirrored op per
matching endpoint of the event, in source-then-destination order; an event
whose both endpoints match enqueues two ops, and an event naming no
system-prefixed port whose short name matches a bridge port enqueues none;
the enqueued ops are all applied by the drain of the next period's callback. -/
theorem c5_mirroring_per_endpoint (queue : List JackConnectOperation)
    (a b : JackPort) (c : Bool) (res : JackConnectOperation → Int)
    (bufs : SessionBuffers) (nframes : Nat) (inp : ProcessIn) :
    jack_on_port_connect queue a b c = queue ++ mirrorA a b c ++ mirrorB a b c ∧
    (mirrorA a b c).length ≤ 1 ∧ (mirrorB a b c).length ≤ 1 ∧
    (isSystemName a.fullName = false → mirrorA a b c = []) ∧
    (isSystemName b.fullName = false → mirrorB a b c = []) ∧
    (jack_on_process res bufs (jack_on_port_connect queue a b c) nframes inp).applied
      = queue ++ mirrorA a b c ++ mirrorB a b c := by
  refine ⟨?_, ?_, ?_, ?_, ?_, ?_⟩
  · rw [jack_on_port_connect_eq, specMirroredOps, List.append_assoc]
  · simp only [mirrorA]
    cases ha : isSystemName a.fullName <;>
      cases hf : jopaCapturePorts.find? (fun p => decide (p.short = a.short)) <;>
        simp [hf]
  · simp only [mirrorB]
    cases hb : isSystemName b.fullName <;>
      cases hg : jopaPlaybackPorts.find? (fun p => decide (p.short = b.short)) <;>
        simp [hg]
  · intro ha
    simp [mirrorA, ha]
  · intro hb
    simp [mirrorB, hb]
  · show (jack_finish_connect res (jack_on_port_connect queue a b c)).1
      = queue ++ mirrorA a b c ++ mirrorB a b c
    rw [jack_finish_connect_drain, jack_on_port_connect_eq, specMirroredOps,
      List.append_assoc]

/-- Claim C5 witness at a concrete input: the double-match event appends the
two per-endpoint ops. -/
theorem c5_witness :
    jack_on_port_connect [] portSysCap1 portSysPlay1 true
      = [] ++ mirrorA portSysCap1 portSysPlay1 true
          ++ mirrorB portSysCap1 portSysPlay1 true :=
  (c5_mirroring_per_endpoint [] portSysCap1 portSysPlay1 true resEx
    bufsWitnessC3 1 inpEx).1

/-- Claim C6: every ring transport allocation, at startup and on every
block-size change, has byte capacity period_frames x frame_size x fragments
with frame_size = num_channels x sample_width and fragments = 2, and that
capacity is a multiple of frame_size. -/
theorem c6_ring_capacity (b : Nat) (old : Rings) :
    (initRings b).playback.size
      = b * (num_channels * sample_width) * ringbuffer_fragments ∧
    (initRings b).capture.size
      = b * (num_channels * sample_width) * ringbuffer_fragments ∧
    (initRings b).monitor.size
      = b * (num_channels * sample_width) * ringbuffer_fragments ∧
    (jack_on_buffer_size_rings old b).playback.size
      = b * (num_channels * sample_width) * ringbuffer_fragments ∧
    (jack_on_buffer_size_rings old b).capture.size
      = b * (num_channels * sample_width) * ringbuffer_fragments ∧
    (jack_on_buffer_size_rings old b).monitor.size
      = b * (num_channels * sample_width) * ringbuffer_fragments ∧
    ringbuffer_fragments = 2 ∧
    (num_channels * sample_width) ∣ (initRings b).playback.size ∧
    (num_channels * sample_width) ∣ (jack_on_buffer_size_rings old b).playback.size := by
  have hsz : ringCapacity b = b * (num_channels * sample_width) * ringbuffer_fragments := by
    simp only [ringCapacity]; ring
  have hdvd : (num_channels * sample_width) ∣ ringCapacity b := by
    refine ⟨b * ringbuffer_fragments, ?_⟩
    simp only [ringCapacity]; ring
  exact ⟨hsz, hsz, hsz, hsz, hsz, hsz, rfl, hdvd, hdvd⟩

/-- Claim C7: after a block-size change to P2 frames, the three transports
are fresh buffers of capacity proportional to P2 (P2 x frame_size x
fragments), independent of the old buffers, with nothing readable in them:
destroy-and-recreate reset semantics, never an in-place resize. -/
theorem c7_block_size_reset (old : Rings) (p2 : Nat) :
    (jack_on_buffer_size_rings old p2).playback = Ringbuffer.create (ringCapacity p2) ∧
    (jack_on_buffer_size_rings old p2).capture = Ringbuffer.create (ringCapacity p2) ∧
    (jack_on_buffer_size_rings old p2).monitor = Ringbuffer.create (ringCapacity p2) ∧
    (jack_on_buffer_size_rings old p2).playback.size
      = p2 * (num_channels * sample_width) * ringbuffer_fragments ∧
    (jack_on_buffer_size_rings old p2).playback.read_space = 0 ∧
    (jack_on_buffer_size_rings old p2).capture.read_space = 0 ∧
    (jack_on_buffer_size_rings old p2).monitor.read_space = 0 := by
  refine ⟨rfl, rfl, rfl, ?_, rfl, rfl, rfl⟩
  simp only [jack_on_buffer_size_rings, Ringbuffer.create, ringCapacity]
  ring

/-- Claim C9 (the code contradicts it): in jack_on_buffer_size the shared
buffer-size field and the three buffer-attribute updates run at lock depth 0
because the guard at the top of the handler is an unnamed temporary that is
destroyed, releasing the lock, at the end of its own statement; only the
ring replacement runs at depth 1.  In jack_on_sample_rate the rate field and
all three stream rate updates likewise run at depth 0. -/
theorem c9_reconfig_lock_not_held :
    jack_on_buffer_size_trace.getD 2 LockAction.lock = LockAction.setBufferSizeField ∧
    depthBefore jack_on_buffer_size_trace 2 = 0 ∧
    jack_on_buffer_size_trace.getD 3 LockAction.lock = LockAction.setPlaybackBufferAttr ∧
    depthBefore jack_on_buffer_size_trace 3 = 0 ∧
    jack_on_buffer_size_trace.getD 4 LockAction.lock = LockAction.setRecordBufferAttr ∧
    depthBefore jack_on_buffer_size_trace 4 = 0 ∧
    jack_on_buffer_size_trace.getD 5 LockAction.lock = LockAction.setMonitorBufferAttr ∧
    depthBefore jack_on_buffer_size_trace 5 = 0 ∧
    jack_on_buffer_size_trace.getD 7 LockAction.lock = LockAction.replaceRings ∧
    depthBefore jack_on_buffer_size_trace 7 = 1 ∧
    jack_on_sample_rate_trace.getD 2 LockAction.lock = LockAction.setSampleRateField ∧
    depthBefore jack_on_sample_rate_trace 2 = 0 ∧
    depthBefore jack_on_sample_rate_trace 3 = 0 ∧
    depthBefore jack_on_sample_rate_trace 4 = 0 ∧
    depthBefore jack_on_sample_rate_trace 5 = 0 ∧
    touchesSharedConfig LockAction.setBufferSizeField = true ∧
    touchesSharedConfig LockAction.setSampleRateField = true := by
  decide

/-- Claim C10: the drain consumes every queued op exactly once, in order,
regardless of the status returned by jack_connect/jack_disconnect: failures
are ignored, nothing is retried, the drain never stops early, and its result
does not depend on the status oracle at all. -/
theorem c10_drain_ignores_failures (res res2 : JackConnectOperation → Int)
    (queue : List JackConnectOperation) :
    jack_finish_connect res queue = (queue, []) ∧
    jack_finish_connect res queue = jack_finish_connect res2 queue := by
  rw [jack_finish_connect_drain, jack_finish_connect_drain]
  exact ⟨rfl, rfl⟩

/-- Claim C3: the playback copy interleaves the per-channel port samples so
that the byte at transport write offset (i x num_channels + ch) x
sample_width + k holds byte k of channel ch's sample i, including when the
write straddles the physical wrap point (the loop splits it into the two
contiguous sub-copies); and when the transport was empty, a consumer reading
the period's bytes obtains exactly the payload a linear buffer would have
produced. -/
theorem c3_playback_wrap_interleaving (res : JackConnectOperation → Int)
    (bufs : SessionBuffers) (queue : List JackConnectOperation) (nframes : Nat)
    (inp : ProcessIn)
    (hs4 : 4 ∣ bufs.playback_rb.size) (hw4 : 4 ∣ bufs.playback_rb.write_ptr)
    (hreq : buffer_required nframes ≤ bufs.playback_rb.write_space) :
    (∀ m, m < buffer_required nframes →
      (jack_on_process res bufs queue nframes inp).bufs.playback_rb.data
        ((bufs.playback_rb.write_ptr + m) % bufs.playback_rb.size)
        = interleavedByte inp.play_in m) ∧
    (bufs.playback_rb.read_ptr = bufs.playback_rb.write_ptr →
      (jack_on_process res bufs queue nframes inp).bufs.playback_rb.peekBytes
        (buffer_required nframes)
        = (List.range (buffer_required nframes)).map (interleavedByte inp.play_in)) := by
  have hdata := processPlayback_data_byte bufs.playback_rb nframes inp.play_in hs4 hw4 hreq
  have hproj : (jack_on_process res bufs queue nframes inp).bufs.playback_rb
      = (processPlayback bufs.playback_rb nframes inp.play_in).1 := rfl
  constructor
  · intro m hm
    rw [hproj]
    exact hdata m hm
  · intro hrw
    rw [hproj]
    have hptr : (processPlayback bufs.playback_rb nframes inp.play_in).1.read_ptr
        = bufs.playback_rb.read_ptr := by
      simp only [processPlayback, if_pos hreq]
    have hsz : (processPlayback bufs.playback_rb nframes inp.play_in).1.size
        = bufs.playback_rb.size := by
      simp only [processPlayback, if_pos hreq]
    have hrs : (processPlayback bufs.playback_rb nframes inp.play_in).1.read_space
        = buffer_required nframes := by
      simp only [processPlayback, Ringbuffer.read_space, if_pos hreq]
      omega
    simp only [Ringbuffer.peekBytes]
    rw [hrs, hptr, hsz, Nat.min_self]
    apply List.map_congr_left
    intro j hj
    rw [List.mem_range] at hj
    rw [hrw]
    exact hdata j hj

/-- Claim C3 witness at a concrete input: a one-frame period written into a
16-byte transport whose write position is 12, so the 8-byte write straddles
the wrap point. -/
theorem c3_witness :
    (∀ m, m < buffer_required 1 →
      (jack_on_process resEx bufsWitnessC3 [] 1 inpEx).bufs.playback_rb.data
        ((bufsWitnessC3.playback_rb.write_ptr + m) % bufsWitnessC3.playback_rb.size)
        = interleavedByte inpEx.play_in m) ∧
    (bufsWitnessC3.playback_rb.read_ptr = bufsWitnessC3.playback_rb.write_ptr →
      (jack_on_process resEx bufsWitnessC3 [] 1 inpEx).bufs.playback_rb.peekBytes
        (buffer_required 1)
        = (List.range (buffer_required 1)).map (interleavedByte inpEx.play_in)) :=
  c3_playback_wrap_interleaving resEx bufsWitnessC3 [] 1 inpEx
    (by decide) (by decide) (by decide)

/-- Claim C8: for the capture and monitor directions of a graph-period
callback, if the transport holds fewer readable bytes than the period
requires, the transport and the port buffers are untouched and exactly one
underflow is reported for that direction; otherwise exactly the period's
bytes are consumed (read pointer advanced by that amount, nothing else
changed) and de-interleaved into the per-channel port buffers, with no
underflow. -/
theorem c8_capture_monitor_policy (res : JackConnectOperation → Int)
    (bufs : SessionBuffers) (queue : List JackConnectOperation) (nframes : Nat)
    (inp : ProcessIn)
    (hc4s : 4 ∣ bufs.capture_rb.size) (hc4r : 4 ∣ bufs.capture_rb.read_ptr)
    (hcle : bufs.capture_rb.read_space ≤ bufs.capture_rb.size)
    (hm4s : 4 ∣ bufs.monitor_rb.size) (hm4r : 4 ∣ bufs.monitor_rb.read_ptr)
    (hmle : bufs.monitor_rb.read_space ≤ bufs.monitor_rb.size) :
    ((bufs.capture_rb.read_space < buffer_required nframes →
      (jack_on_process res bufs queue nframes inp).bufs.capture_rb = bufs.capture_rb ∧
      (jack_on_process res bufs queue nframes inp).cap_out = inp.cap_prev ∧
      ((jack_on_process res bufs queue nframes inp).reports).count
        Report.recordUnderflow = 1) ∧
     (buffer_required nframes ≤ bufs.capture_rb.read_space →
      (jack_on_process res bufs queue nframes inp).bufs.capture_rb
        = bufs.capture_rb.read_advance (buffer_required nframes) ∧
      ((jack_on_process res bufs queue nframes inp).reports).count
        Report.recordUnderflow = 0 ∧
      (∀ ch, ch < num_channels → ∀ i, i < nframes →
        (jack_on_process res bufs queue nframes inp).cap_out ch i
          = deinterleavedSample bufs.capture_rb i ch))) ∧
    ((bufs.monitor_rb.read_space < buffer_required nframes →
      (jack_on_process res bufs queue nframes inp).bufs.monitor_rb = bufs.monitor_rb ∧
      (jack_on_process res bufs queue nframes inp).mon_out = inp.mon_prev ∧
      ((jack_on_process res bufs queue nframes inp).reports).count
        Report.monitorUnderflow = 1) ∧
     (buffer_required nframes ≤ bufs.monitor_rb.read_space →
      (jack_on_process res bufs queue nframes inp).bufs.monitor_rb
        = bufs.monitor_rb.read_advance (buffer_required nframes) ∧
      ((jack_on_process res bufs queue nframes inp).reports).count
        Report.monitorUnderflow = 0 ∧
      (∀ ch, ch < num_channels → ∀ i, i < nframes →
        (jack_on_process res bufs queue nframes inp).mon_out ch i
          = deinterleavedSample bufs.monitor_rb i ch))) := by
  have hp := processPlayback_count bufs.playback_rb nframes inp.play_in
    Report.recordUnderflow (by decide)
  have hpm := processPlayback_count bufs.playback_rb nframes inp.play_in
    Report.monitorUnderflow (by decide)
  have hcm := processCapture_count bufs.capture_rb nframes inp.cap_prev
    Report.recordUnderflow Report.monitorUnderflow (by decide)
  have hmc := processCapture_count bufs.monitor_rb nframes inp.mon_prev
    Report.monitorUnderflow Report.recordUnderflow (by decide)
  refine ⟨⟨?_, ?_⟩, ⟨?_, ?_⟩⟩
  · intro h
    have he := processCapture_insufficient bufs.capture_rb nframes inp.cap_prev
      Report.recordUnderflow h
    refine ⟨?_, ?_, ?_⟩
    · show (processCapture bufs.capture_rb nframes inp.cap_prev
        Report.recordUnderflow).1 = bufs.capture_rb
      rw [he]
    · show (processCapture bufs.capture_rb nframes inp.cap_prev
        Report.recordUnderflow).2.1 = inp.cap_prev
      rw [he]
    · show ((processPlayback bufs.playback_rb nframes inp.play_in).2
          ++ (processCapture bufs.capture_rb nframes inp.cap_prev
              Report.recordUnderflow).2.2
          ++ (processCapture bufs.monitor_rb nframes inp.mon_prev
              Report.monitorUnderflow).2.2).count Report.recordUnderflow = 1
      rw [List.count_append, List.count_append, hp, hmc, he]
      simp [List.count_cons]
  · intro h
    obtain ⟨h1, h2, h3⟩ := processCapture_sufficient bufs.capture_rb nframes
      inp.cap_prev Report.recordUnderflow hc4s hc4r hcle h
    refine ⟨h1, ?_, ?_⟩
    · show ((processPlayback bufs.playback_rb nframes inp.play_in).2
          ++ (processCapture bufs.capture_rb nframes inp.cap_prev
              Report.recordUnderflow).2.2
          ++ (processCapture bufs.monitor_rb nframes inp.mon_prev
              Report.monitorUnderflow).2.2).count Report.recordUnderflow = 0
      rw [List.count_append, List.count_append, hp, hmc, h2]
      simp
    · intro ch hch i hi
      exact h3 ch hch i hi
  · intro h
    have he := processCapture_insufficient bufs.monitor_rb nframes inp.mon_prev
      Report.monitorUnderflow h
    refine ⟨?_, ?_, ?_⟩
    · show (processCapture bufs.monitor_rb nframes inp.mon_prev
        Report.monitorUnderflow).1 = bufs.monitor_rb
      rw [he]
    · show (processCapture bufs.monitor_rb nframes inp.mon_prev
        Report.monitorUnderflow).2.1 = inp.mon_prev
      rw [he]
    · show ((processPlayback bufs.playback_rb nframes inp.play_in).2
          ++ (processCapture bufs.capture_rb nframes inp.cap_prev
              Report.recordUnderflow).2.2
          ++ (processCapture bufs.monitor_rb nframes inp.mon_prev
              Report.monitorUnderflow).2.2).count Report.monitorUnderflow = 1
      rw [List.count_append, List.count_append, hpm, hcm, he]
      simp [List.count_cons]
  · intro h
    obtain ⟨h1, h2, h3⟩ := processCapture_sufficient bufs.monitor_rb nframes
      inp.mon_prev Report.monitorUnderflow hm4s hm4r hmle h
    refine ⟨h1, ?_, ?_⟩
    · show ((processPlayback bufs.playback_rb nframes inp.play_in).2
          ++ (processCapture bufs.capture_rb nframes inp.cap_prev
              Report.recordUnderflow).2.2
          ++ (processCapture bufs.monitor_rb nframes inp.mon_prev
              Report.monitorUnderflow).2.2).count Report.monitorUnderflow = 0
      rw [List.count_append, List.count_append, hpm, hcm, h2]
      simp
    · intro ch hch i hi
      exact h3 ch hch i hi

/-- Claim C8 witness at a concrete input: the capture transport holds exactly
one period (straddling the wrap point) and is consumed; the monitor
transport holds too little and is untouched. -/
theorem c8_witness :
    (buffer_required 1 ≤ bufsWitnessC8.capture_rb.read_space ∧
      (jack_on_process resEx bufsWitnessC8 [] 1 inpEx).bufs.capture_rb
        = bufsWitnessC8.capture_rb.read_advance (buffer_required 1)) ∧
    (bufsWitnessC8.monitor_rb.read_space < buffer_required 1 ∧
      (jack_on_process resEx bufsWitnessC8 [] 1 inpEx).mon_out = inpEx.mon_prev) :=
  ⟨⟨by decide,
    ((c8_capture_monitor_policy resEx bufsWitnessC8 [] 1 inpEx (by decide) (by decide)
        (by decide) (by decide) (by decide) (by decide)).1.2 (by decide)).1⟩,
   ⟨by decide,
    ((c8_capture_monitor_policy resEx bufsWitnessC8 [] 1 inpEx (by decide) (by decide)
        (by decide) (by decide) (by decide) (by decide)).2.1 (by decide)).2.1⟩⟩

end Jopa
